import Mathlib

/-!
Verification of the Dell-710 PropertyScraper orchestration subsystem.

Shallow embedding of the scheduling and recovery core:
  - src/utils/enhanced_scraps_registry.py   (task registry)
  - src/utils/checkpoint_recovery.py        (crash recovery)
  - src/orchestrator/advanced_orchestrator.py (dispatcher / lanes / shutdown)
  - src/orchestrator/concurrent_manager.py  (worker reaping, dependent tasks)

Modelling conventions:
  - Timestamps are natural numbers counting seconds.  The Python code stores
    ISO-8601 strings produced by datetime.isoformat(); such strings compare
    chronologically under string comparison, so Nat comparison is faithful.
    timedelta(days = d) corresponds to adding d * 86400 seconds.
  - The LastRun column is either the empty string (task never ran) or a
    valid timestamp written by the code itself; it is modelled as Option Nat
    with none standing for the empty string, which sorts before every
    timestamp exactly as the empty string does.
  - The NextRun column can also hold an unparsable string (the code has an
    explicit ValueError branch for it), so it is modelled by a three-case
    type: empty, invalid, or a timestamp.
  - CSV files are the persistent store; the registry is modelled as the list
    of task records, and every mutation writes through, as the code rewrites
    the CSV on each update.
-/

/-- Seconds in one day: timedelta(days = d) adds d * 86400 seconds. -/
def secondsPerDay : Nat := 86400

/-- A value of the NextRun CSV column: empty string, unparsable string
(the ValueError branch of datetime.fromisoformat), or a timestamp. -/
inductive TimeField where
  | empty
  | invalid
  | val (t : Nat)
deriving DecidableEq, Repr

/-- One loaded task of the enhanced registry, mirroring the url_data
dictionary built by EnhancedScrapsRegistry.load_urls_from_csv.  The
display-only ScrapOfMonth column is omitted; Records is modelled as the
extracted-records count it stringifies. -/
structure Scrap where
  id : String
  website : String
  ciudad : String
  operacion : String
  producto : String
  url : String
  prioridad : Nat
  intervalo_dias : Nat
  activo : Bool
  csv_row : Nat
  csv_file : String
  status : String
  last_run : Option Nat
  next_run : TimeField
  records : Nat
deriving DecidableEq, Repr

/-- EnhancedScrapsRegistry.get_website_priority -/
def get_website_priority (website : String) : Nat :=
  if website == "Inmuebles24" then 1
  else if website == "Casas_y_terrenos" then 2
  else if website == "lamudi" then 3
  else if website == "mitula" then 4
  else if website == "propiedades" then 5
  else if website == "trovit" then 6
  else 10

/-- EnhancedScrapsRegistry.get_interval_days -/
def get_interval_days (website : String) : Nat :=
  if website == "Inmuebles24" then 15
  else if website == "Casas_y_terrenos" then 7
  else if website == "lamudi" then 10
  else if website == "mitula" then 14
  else if website == "propiedades" then 21
  else if website == "trovit" then 14
  else 30

/-- A raw CSV row of a URLs/*.csv file, with the columns the loader reads.
The url field holds the value extract_url_column returns for the row. -/
structure CsvRow where
  paginaWeb : String
  ciudad : String
  operacion : String
  productoPaginaWeb : String
  url : String
  status : String
  lastRun : Option Nat
  nextRun : TimeField
  records : Nat
deriving DecidableEq, Repr

/-- One CSV file of the URLs directory. -/
structure CsvFile where
  name : String
  rows : List CsvRow
deriving DecidableEq, Repr

/-- Python str.lower on one character, for the ASCII letters this data
uses (String.toLower of core Lean is defined by well-founded recursion and
does not evaluate inside the kernel, so the loader is embedded with this
structurally recursive equivalent). -/
def lower_char : Char -> Char
  | 'A' => 'a' | 'B' => 'b' | 'C' => 'c' | 'D' => 'd' | 'E' => 'e'
  | 'F' => 'f' | 'G' => 'g' | 'H' => 'h' | 'I' => 'i' | 'J' => 'j'
  | 'K' => 'k' | 'L' => 'l' | 'M' => 'm' | 'N' => 'n' | 'O' => 'o'
  | 'P' => 'p' | 'Q' => 'q' | 'R' => 'r' | 'S' => 's' | 'T' => 't'
  | 'U' => 'u' | 'V' => 'v' | 'W' => 'w' | 'X' => 'x' | 'Y' => 'y'
  | 'Z' => 'z'
  | c => c

/-- Python str.lower. -/
def str_lower (s : String) : String :=
  String.mk (s.data.map lower_char)

/-- The whitespace Python str.strip removes. -/
def is_space_char (c : Char) : Bool :=
  c == ' ' || c == '\t' || c == '\n' || c == '\r'

/-- Python str.strip. -/
def str_trim (s : String) : String :=
  String.mk
    (((s.data.dropWhile is_space_char).reverse.dropWhile is_space_char).reverse)

/-- Python str.replace on character lists, fuelled by the input length so
that the recursion is structural; every occurrence of old is replaced left
to right without overlap. -/
def replace_list (old new : List Char) : Nat -> List Char -> List Char
  | 0, l => l
  | _ + 1, [] => []
  | fuel + 1, c :: rest =>
    if old.isPrefixOf (c :: rest) then
      new ++ replace_list old new fuel (rest.drop (old.length - 1))
    else c :: replace_list old new fuel rest

/-- Python str.replace for a nonempty pattern (every pattern the code
replaces is one character long). -/
def str_replace (s old new : String) : String :=
  if old.data.isEmpty then s
  else String.mk (replace_list old.data new.data s.data.length s.data)

/-- The chain of character replacements applied to a freshly built url_id. -/
def normalize_id_string (s : String) : String :=
  str_replace
    (str_replace
      (str_replace
        (str_replace
          (str_replace (str_replace (str_replace s "/" "_") "-" "_") "ñ" "n")
          "é" "e")
        "í" "i")
      "ó" "o")
    "ú" "u"

/-- The url_id f-string of load_urls_from_csv. -/
def make_url_id (pagina_web ciudad operacion producto : String) : String :=
  normalize_id_string
    (str_lower pagina_web ++ "_" ++ str_replace (str_lower ciudad) " " "_" ++
      "_" ++ str_lower operacion ++ "_" ++
      str_replace (str_lower producto) " " "_")

/-- The body of the row loop of load_urls_from_csv: builds the url_data
record when both the URL and PaginaWeb cells are nonempty, else skips. -/
def mk_scrap (fileName : String) (idx : Nat) (row : CsvRow) : Option Scrap :=
  let pagina_web := str_trim row.paginaWeb
  let ciudad := str_trim row.ciudad
  let operacion := str_trim row.operacion
  let producto := str_trim row.productoPaginaWeb
  let url := str_trim row.url
  if url != "" && pagina_web != "" then
    some
      { id := make_url_id pagina_web ciudad operacion producto
        website := pagina_web
        ciudad := ciudad
        operacion := operacion
        producto := producto
        url := url
        prioridad := get_website_priority pagina_web
        intervalo_dias := get_interval_days pagina_web
        activo := true
        csv_row := idx
        csv_file := fileName
        status := row.status
        last_run := row.lastRun
        next_run := row.nextRun
        records := row.records }
  else none

/-- The row loop of load_urls_from_csv over one file, with enumerate
starting at 1. -/
def load_rows (fileName : String) : Nat → List CsvRow → List Scrap
  | _, [] => []
  | idx, r :: rest =>
    match mk_scrap fileName idx r with
    | some s => s :: load_rows fileName (idx + 1) rest
    | none => load_rows fileName (idx + 1) rest

/-- EnhancedScrapsRegistry.load_urls_from_csv: append every accepted row of
every CSV file, in file order then row order.  No deduplication occurs. -/
def load_urls_from_csv : List CsvFile → List Scrap
  | [] => []
  | f :: rest => load_rows f.name 1 f.rows ++ load_urls_from_csv rest

/-- Natural key of a task: (site, city, operation, product). -/
def natural_key (s : Scrap) : String × String × String × String :=
  (s.website, s.ciudad, s.operacion, s.producto)

/-- Natural key of a raw record after the strip calls of the loader. -/
def row_key (r : CsvRow) : String × String × String × String :=
  (str_trim r.paginaWeb, str_trim r.ciudad, str_trim r.operacion,
    str_trim r.productoPaginaWeb)

/-- A record passes the loader exactly when URL and PaginaWeb are nonempty. -/
def row_valid (r : CsvRow) : Bool :=
  str_trim r.url != "" && str_trim r.paginaWeb != ""

/-- The readiness test of get_pending_scraps on the next_run cell: the empty
string is falsy (include), a parse failure is caught and included, and a
parsed timestamp is included once now has reached it. -/
def scrap_is_due (now : Nat) (s : Scrap) : Bool :=
  match s.next_run with
  | .empty => true
  | .invalid => true
  | .val t => decide (now ≥ t)

/-- The continue conditions of the get_pending_scraps loop, as one test:
the task must be active, match the optional website filter
(case-insensitively), and be due. -/
def pending_filter (website : Option String) (now : Nat) (s : Scrap) : Bool :=
  s.activo &&
    (match website with
     | some w => str_lower s.website == str_lower w
     | none => true) &&
    scrap_is_due now s

/-- The accumulation loop of get_pending_scraps, before sorting. -/
def pending_loop (website : Option String) (now : Nat) : List Scrap → List Scrap
  | [] => []
  | s :: rest =>
    if pending_filter website now s then s :: pending_loop website now rest
    else pending_loop website now rest

/-- Comparison of LastRun cells as the sort key uses them: the empty string
(never ran) precedes every timestamp, timestamps compare chronologically. -/
def lastRunLe : Option Nat → Option Nat → Prop
  | none, _ => True
  | some _, none => False
  | some a, some b => a ≤ b

instance : DecidableRel lastRunLe := fun x y =>
  match x, y with
  | none, _ => isTrue trivial
  | some _, none => isFalse id
  | some a, some b => inferInstanceAs (Decidable (a ≤ b))

/-- The sort key of get_pending_scraps: the tuple
(int(prioridad), last_run) compared as Python compares key tuples. -/
def pending_le (a b : Scrap) : Prop :=
  a.prioridad < b.prioridad ∨
    (a.prioridad = b.prioridad ∧ lastRunLe a.last_run b.last_run)

instance : DecidableRel pending_le := fun _a _b =>
  inferInstanceAs (Decidable (_ ∨ _))

instance : IsTotal Scrap pending_le where
  total a b := by
    unfold pending_le lastRunLe
    rcases Nat.lt_trichotomy a.prioridad b.prioridad with h | h | h
    · exact Or.inl (Or.inl h)
    · rcases a.last_run with _ | x <;> rcases b.last_run with _ | y <;>
        simp [h]
      exact Nat.le_total x y
    · exact Or.inr (Or.inl h)

instance : IsTrans Scrap pending_le where
  trans a b c hab hbc := by
    unfold pending_le lastRunLe at hab hbc ⊢
    rcases hab with h1 | ⟨h1, h1'⟩
    · rcases hbc with h2 | ⟨h2, _⟩
      · exact Or.inl (h1.trans h2)
      · exact Or.inl (h2 ▸ h1)
    · rcases hbc with h2 | ⟨h2, h2'⟩
      · exact Or.inl (h1 ▸ h2)
      · refine Or.inr ⟨h1.trans h2, ?_⟩
        rcases ha : a.last_run with _ | x <;> rcases hb : b.last_run with _ | y <;>
          rcases hc : c.last_run with _ | z <;> simp_all
        omega

/-- EnhancedScrapsRegistry.get_pending_scraps: filter, then a stable sort
ascending on (priority, LastRun).  Python list.sort is a stable sort; so is
List.insertionSort, and for a total transitive relation a stable sort of a
list is unique, so insertionSort models it faithfully. -/
def get_pending_scraps (website : Option String) (now : Nat)
    (registry : List Scrap) : List Scrap :=
  List.insertionSort pending_le (pending_loop website now registry)

/-- The selection loop of get_next_scraps_to_run: walk the pending list,
keeping the first task of each website, at most max_count in total. -/
def next_scraps_loop (max_count : Nat) (used : List String) :
    List Scrap → List Scrap
  | [] => []
  | s :: rest =>
    if max_count = 0 then []
    else if used.contains s.website then next_scraps_loop max_count used rest
    else s :: next_scraps_loop (max_count - 1) (s.website :: used) rest

/-- EnhancedScrapsRegistry.get_next_scraps_to_run -/
def get_next_scraps_to_run (now : Nat) (registry : List Scrap)
    (max_count : Nat := 4) : List Scrap :=
  next_scraps_loop max_count [] (get_pending_scraps none now registry)

/-- The field overwrite of update_scrap_execution: whatever the new status
is, LastRun becomes now and NextRun becomes now plus the interval in days. -/
def apply_update (status : String) (records_extracted now : Nat)
    (s : Scrap) : Scrap :=
  { s with
    status := status
    last_run := some now
    next_run := .val (now + s.intervalo_dias * secondsPerDay)
    records := records_extracted }

/-- Rewrite the first record with the given id (the code looks the task up
with next(...), which yields the first match, and rewrites that CSV row). -/
def update_first (scrapId : String) (f : Scrap → Scrap) :
    List Scrap → List Scrap
  | [] => []
  | s :: rest =>
    if s.id == scrapId then f s :: rest
    else s :: update_first scrapId f rest

/-- EnhancedScrapsRegistry.update_scrap_execution: returns none (False) when
no task has the given id, otherwise unconditionally overwrites the record.
No state-machine check of (current status, new status) is performed.  The
secondary failure of the code, a stored csv_row index beyond the end of the
file, cannot arise here because the registry list is the store. -/
def update_scrap_execution (registry : List Scrap) (scrapId status : String)
    (records_extracted : Nat := 0) (now : Nat := 0) :
    Option (List Scrap) :=
  if registry.any (fun s => s.id == scrapId) then
    some (update_first scrapId (apply_update status records_extracted now)
      registry)
  else none

/-- The due test of AdvancedOrchestrator.get_scraps_for_website on one task
of the requested site.  A task passes when its status is pending, or when it
is completed with a nonempty NextRun that now has reached.  An unparsable
NextRun on a completed task makes datetime.fromisoformat raise an uncaught
ValueError, aborting the whole call: that is the none result. -/
def website_scrap_due (now : Nat) (s : Scrap) : Option Bool :=
  if s.status == "pending" then some true
  else if s.status == "completed" then
    match s.next_run with
    | .empty => some false
    | .invalid => none
    | .val t => some (decide (now ≥ t))
  else some false

/-- The selection loop of get_scraps_for_website: keep the tasks of the
requested website (exact comparison) that are due; a ValueError anywhere
aborts the call. -/
def website_filter_loop (website : String) (now : Nat) :
    List Scrap → Option (List Scrap)
  | [] => some []
  | s :: rest =>
    if s.website == website then
      match website_scrap_due now s with
      | none => none
      | some true => (website_filter_loop website now rest).map (s :: ·)
      | some false => website_filter_loop website now rest
    else website_filter_loop website now rest

/-- The sort key of get_scraps_for_website: the tuple
(operacion, producto) of strings, compared as Python compares key tuples —
lexicographically by character code point.  The comparison is stated on the
character lists of the strings because the Decidable instances of the order
on String itself do not evaluate inside the kernel. -/
def op_prod_le (a b : Scrap) : Prop :=
  a.operacion.data < b.operacion.data ∨
    (a.operacion.data = b.operacion.data ∧ a.producto.data ≤ b.producto.data)

instance : DecidableRel op_prod_le := fun _a _b =>
  inferInstanceAs (Decidable (_ ∨ _))

instance : IsTotal Scrap op_prod_le where
  total a b := by
    unfold op_prod_le
    rcases lt_trichotomy a.operacion.data b.operacion.data with h | h | h
    · exact Or.inl (Or.inl h)
    · rcases le_total a.producto.data b.producto.data with h' | h'
      · exact Or.inl (Or.inr ⟨h, h'⟩)
      · exact Or.inr (Or.inr ⟨h.symm, h'⟩)
    · exact Or.inr (Or.inl h)

instance : IsTrans Scrap op_prod_le where
  trans a b c hab hbc := by
    unfold op_prod_le at hab hbc ⊢
    rcases hab with h1 | ⟨h1, h1'⟩
    · rcases hbc with h2 | ⟨h2, _⟩
      · exact Or.inl (h1.trans h2)
      · exact Or.inl (h2 ▸ h1)
    · rcases hbc with h2 | ⟨h2, h2'⟩
      · exact Or.inl (h1 ▸ h2)
      · exact Or.inr ⟨h1.trans h2, h1'.trans h2'⟩

/-- AdvancedOrchestrator.get_scraps_for_website: the due tasks of one site,
stably sorted ascending on (operacion, producto) — not registry order. -/
def get_scraps_for_website (website : String) (now : Nat)
    (registry : List Scrap) : Option (List Scrap) :=
  (website_filter_loop website now registry).map
    (List.insertionSort op_prod_le)

/-- The per-task loop of AdvancedOrchestrator.process_website_completely:
resources is the value check_system_resources returns at the k-th check.
When the check fails, the code logs, sleeps 60 seconds, and executes
continue — which advances the for loop to the NEXT task, so the rejected
task is skipped for this pass.  The returned list is the sequence of tasks
handed to start_scraper_for_scrap, in order; each launched task is waited
on before the loop continues, so the site lane holds one task at a time. -/
def process_website_launches (resources : Nat → Bool) :
    Nat → List Scrap → List Scrap
  | _, [] => []
  | k, s :: rest =>
    if resources k then s :: process_website_launches resources (k + 1) rest
    else process_website_launches resources (k + 1) rest

/-- AdvancedOrchestrator.max_concurrent_websites, set to 4 in the
constructor. -/
def max_concurrent_websites : Nat := 4

/-- The lane state of the orchestrator: the active_scrapers map, one entry
per website holding the scrap its worker thread is currently running. -/
structure LaneState where
  active : List (String × Scrap)
deriving DecidableEq, Repr

/-- One atomic step of the orchestration loops of run_orchestration and
run_batch_from_csv.
  - start: a website thread is admitted; run_orchestration only starts one
    when len(active_scrapers) is below max_concurrent_websites and
    get_next_website_to_process returned a website not in active_scrapers
    (run_batch_from_csv pops each website of the dict at most once, with the
    same capacity guard).
  - next_task: the worker of a website finishes one scrap and its lane
    entry moves to the next scrap of the same site, one at a time.
  - finish: the entry of a completed website is deleted from the map. -/
inductive LaneStep (max : Nat) : LaneState → LaneState → Prop
  | start (st : LaneState) (w : String) (s : Scrap)
      (hlen : st.active.length < max)
      (hnew : w ∉ st.active.map Prod.fst) :
      LaneStep max st ⟨st.active ++ [(w, s)]⟩
  | next_task (st : LaneState) (w : String) (s : Scrap) :
      LaneStep max st
        ⟨st.active.map (fun p => if p.1 == w then (w, s) else p)⟩
  | finish (st : LaneState) (w : String) :
      LaneStep max st ⟨st.active.filter (fun p => p.1 != w)⟩

/-- States of the orchestration loop reachable from the initial empty
active_scrapers map. -/
def LaneReachable (max : Nat) (st : LaneState) : Prop :=
  Relation.ReflTransGen (LaneStep max) ⟨[]⟩ st

/-- The shared helper of graceful_shutdown and resume_from_checkpoint: run
update_scrap_execution once per listed task id, ignoring a False return, the
registry threading through (each update rewrites the CSV store). -/
def update_all_by_ids (status : String) (records_extracted now : Nat)
    (ids : List String) (registry : List Scrap) : List Scrap :=
  ids.foldl
    (fun reg i => (update_scrap_execution reg i status records_extracted now).getD reg)
    registry

/-- AdvancedOrchestrator.graceful_shutdown: after joining each worker with a
30-second grace timeout, every task of the active_scrapers map is set to
paused through the registry (which persists each change to the CSV store);
the final save_state call records the orchestrator state file. -/
def graceful_shutdown (registry : List Scrap)
    (active : List (String × Scrap)) (now : Nat) : List Scrap :=
  update_all_by_ids "paused" 0 now (active.map (fun p => p.2.id)) registry

/-- AdvancedOrchestrator.resume_from_checkpoint, before it restarts
run_orchestration: reload the registry, collect the paused tasks, and set
each of them to pending. -/
def resume_paused (registry : List Scrap) (now : Nat) : List Scrap :=
  update_all_by_ids "pending" 0 now
    ((registry.filter (fun s => s.status == "paused")).map (fun s => s.id))
    registry

/-- One record of the legacy central registry file scraps_registry.csv that
CheckpointRecoverySystem reads and rewrites. -/
structure RegRow where
  id : String
  ultimo_estado : String
  ultima_ejecucion : String
  proxima_ejecucion : String
  website : String
  operacion : String
deriving DecidableEq, Repr

/-- A record counts as in progress for the recovery system when its stored
state is en_progreso, compared case-insensitively. -/
def reg_in_progress (r : RegRow) : Bool :=
  str_lower r.ultimo_estado == "en_progreso"

/-- The rewrite reset_scrap_status applies to a matching record: state back
to Pendiente, execution timestamps cleared.  The record has no retry
counter, and none is incremented. -/
def reset_row (r : RegRow) : RegRow :=
  { r with
    ultimo_estado := "Pendiente"
    ultima_ejecucion := ""
    proxima_ejecucion := "" }

/-- CheckpointRecoverySystem.reset_scrap_status: rewrite every record with
the given id; the Bool is the updated flag it returns. -/
def reset_scrap_status (scrapId : String) (rows : List RegRow) :
    Bool × List RegRow :=
  (rows.any (fun r => r.id == scrapId),
   rows.map (fun r => if r.id == scrapId then reset_row r else r))

/-- The recovery step 3 of CheckpointRecoverySystem.auto_recovery_sequence,
in the crash scenario where a previous checkpoint exists and an interruption
is detected: the in-progress records are collected once, then
reset_scrap_status runs per id, the store threading through.  No retry
count is consulted or incremented, and no record is ever set to failed. -/
def auto_recovery_scraps (rows : List RegRow) : List RegRow :=
  ((rows.filter reg_in_progress).map (fun r => r.id)).foldl
    (fun acc i => (reset_scrap_status i acc).2) rows

/-- Marking a record as being executed again, for replaying repeated
crash-and-recover rounds. -/
def mark_in_progress (r : RegRow) : RegRow :=
  { r with ultimo_estado := "en_progreso" }

/-- One crash-and-recover round: every record is running when the crash
hits, then auto recovery runs. -/
def crash_recover_round (rows : List RegRow) : List RegRow :=
  auto_recovery_scraps (rows.map mark_in_progress)

/-- CheckpointRecoverySystem.max_recovery_attempts. -/
def max_recovery_attempts : Nat := 3

/-- The scraper task configuration of ConcurrentScraperManager. -/
structure TaskCfg where
  site : String
  operation : String
  city : String
  product : String
  urls_file : Option String
  headless : Bool
  priority : Nat
deriving DecidableEq, Repr

/-- The result a reaped worker thread of the concurrent manager reports. -/
structure ReapResult where
  success : Bool
  urls_file : Option String
  city : Option String
  product : Option String
deriving DecidableEq, Repr

/-- The detail-site selection of ConcurrentScraperManager.manage_scrapers:
a dependent detail scraper exists for the inm24 and lam family of sites. -/
def detail_site_for (site : String) : Option String :=
  if site == "inmuebles24" || site == "inm24" then some "inm24_det"
  else if site == "lamudi" || site == "lam" then some "lam_det"
  else none

/-- The dependent-task block of the reap step of
ConcurrentScraperManager.manage_scrapers, for one reaped parent: when the
parent succeeded, reported a urls_file, and its site has a detail scraper,
exactly one child configuration is enqueued, and task_dependencies records
the parent id it depends on.  The pair is (child config, depends_on). -/
def reap_children (parentId : String) (cfg : TaskCfg) (result : ReapResult) :
    List (TaskCfg × String) :=
  if result.success then
    match result.urls_file with
    | some uf =>
      match detail_site_for cfg.site with
      | some ds =>
        [({ site := ds
            operation := cfg.operation
            city := result.city.getD cfg.city
            product := result.product.getD cfg.product
            urls_file := some uf
            headless := cfg.headless
            priority := cfg.priority }, parentId)]
      | none => []
    | none => []
  else []

/-- What a worker thread of AdvancedOrchestrator does about dependent
scrapes: the detail scraper is called directly inside the worker thread, or
a child task is put on a queue.  The advanced orchestrator has no child
queue at all; this type records which of the two happened. -/
inductive WorkerEvent where
  | inline_detail_run (site : String) (input : String)
  | enqueue_child (site : String) (input : String)
deriving DecidableEq, Repr

/-- AdvancedOrchestrator.detail_dependencies. -/
def detail_dependencies (website : String) : Option String :=
  if website == "inm24" then some "inm24_det"
  else if website == "lam" then some "lam_det"
  else none

/-- The result dictionary a scraper returns inside run_scraper_thread. -/
structure ThreadResult where
  success : Bool
  csv_file : Option String
deriving DecidableEq, Repr

/-- The dependent-scrape tail of AdvancedOrchestrator.run_scraper_thread:
when the scraper succeeded and the site has a detail dependency, the worker
thread itself calls the detail scraper function inline with
result.get(csv_file, url) as input.  Nothing is enqueued anywhere: dependent
work never reaches the dispatcher. -/
def run_scraper_thread_events (website : String) (url : String)
    (result : ThreadResult) : List WorkerEvent :=
  if result.success then
    match detail_dependencies website with
    | some detail_site => [.inline_detail_run detail_site (result.csv_file.getD url)]
    | none => []
  else []

/-- Recognizer for enqueue events of a worker. -/
def is_enqueue_event : WorkerEvent → Bool
  | .enqueue_child _ _ => true
  | .inline_detail_run _ _ => false

/-- A concrete task record used by witnesses and counterexamples. -/
def base_scrap : Scrap :=
  { id := "inmuebles24_guadalajara_venta_casas"
    website := "Inmuebles24"
    ciudad := "Guadalajara"
    operacion := "venta"
    producto := "casas"
    url := "https://example.com/1"
    prioridad := 1
    intervalo_dias := 15
    activo := true
    csv_row := 1
    csv_file := "inm24_urls.csv"
    status := "pending"
    last_run := none
    next_run := .empty
    records := 0 }

/-- A concrete raw CSV record used by witnesses and counterexamples. -/
def base_row : CsvRow :=
  { paginaWeb := "Inmuebles24"
    ciudad := "Guadalajara"
    operacion := "venta"
    productoPaginaWeb := "casas"
    url := "https://example.com/1"
    status := ""
    lastRun := none
    nextRun := .empty
    records := 0 }

/-- A concrete legacy registry record used by witnesses and
counterexamples. -/
def base_regrow : RegRow :=
  { id := "scrap_1"
    ultimo_estado := "en_progreso"
    ultima_ejecucion := "2025-01-01T00:00:00"
    proxima_ejecucion := "2025-01-16T00:00:00"
    website := "Inmuebles24"
    operacion := "venta" }

/-- A concrete scraper task configuration used by witnesses and
counterexamples. -/
def base_cfg : TaskCfg :=
  { site := "inm24"
    operation := "venta"
    city := "guadalajara"
    product := "casas"
    urls_file := none
    headless := true
    priority := 1 }

/-! Helper lemmas shared by several claim proofs. -/

theorem pending_loop_eq_filter (website : Option String) (now : Nat)
    (l : List Scrap) :
    pending_loop website now l = l.filter (pending_filter website now) := by
  induction l with
  | nil => rfl
  | cons s rest ih =>
    by_cases h : pending_filter website now s <;>
      simp [pending_loop, List.filter_cons, h, ih]

theorem map_fst_swap_same (w : String) (s : Scrap)
    (l : List (String × Scrap)) :
    (l.map (fun p => if p.1 == w then (w, s) else p)).map Prod.fst =
      l.map Prod.fst := by
  rw [List.map_map]
  apply List.map_congr_left
  intro p _
  by_cases hp : p.1 = w <;> simp [hp]

/-- C1: At every point during orchestration, at most one task per website is
running — the active_scrapers map holds at most one entry per website, its
websites are pairwise distinct — and the number of websites with a running
scraper never exceeds max_concurrent_websites, which defaults to 4.  Proved
as an inductive invariant of every state reachable by the orchestration
loop from the empty map. -/
theorem lane_invariant (st : LaneState)
    (h : LaneReachable max_concurrent_websites st) :
    st.active.length ≤ max_concurrent_websites ∧
      (st.active.map Prod.fst).Nodup := by
  induction h with
  | refl => simp
  | tail _ hstep ih =>
    cases hstep with
    | start w s hlen hnew =>
      constructor
      · simpa using hlen
      · simp only [List.map_append, List.map_cons, List.map_nil]
        rw [List.nodup_append]
        exact ⟨ih.2, List.nodup_singleton w, by simpa [List.disjoint_left] using hnew⟩
    | next_task w s =>
      refine ⟨?_, ?_⟩
      · simpa using ih.1
      · rw [map_fst_swap_same]
        exact ih.2
    | finish w =>
      refine ⟨le_trans ?_ ih.1, ?_⟩
      · simpa using List.length_filter_le _ _
      · exact ((List.filter_sublist _).map Prod.fst).nodup ih.2

/-- Witness for C1: a concrete reachable state, one website admitted into
the empty lane map, satisfies the invariant. -/
theorem lane_invariant_witness :
    (⟨[("Inmuebles24", base_scrap)]⟩ : LaneState).active.length ≤
        max_concurrent_websites ∧
      ((⟨[("Inmuebles24", base_scrap)]⟩ : LaneState).active.map
          Prod.fst).Nodup :=
  lane_invariant _
    (Relation.ReflTransGen.single
      (LaneStep.start ⟨[]⟩ "Inmuebles24" base_scrap (by decide) (by simp)))

theorem foldl_map_by_id {α : Type} (idOf : α → String) (f : α → α)
    (hid : ∀ a, idOf (f a) = idOf a) (hidem : ∀ a, f (f a) = f a)
    (ids : List String) (l : List α) :
    ids.foldl
        (fun acc i => acc.map (fun a => if idOf a == i then f a else a)) l =
      l.map (fun a => if ids.any (fun i => idOf a == i) then f a else a) := by
  induction ids generalizing l with
  | nil => simp
  | cons i ids ih =>
    rw [List.foldl_cons, ih, List.map_map]
    apply List.map_congr_left
    intro a _
    by_cases h1 : idOf a = i
    · simp [h1, hid, hidem]
    · simp [h1]

theorem any_map_general {α β : Type} (f : α → β) (p : β → Bool)
    (l : List α) : (l.map f).any p = l.any (fun a => p (f a)) := by
  induction l with
  | nil => rfl
  | cons a t ih => simp [ih]

theorem auto_recovery_unfold (rows : List RegRow) :
    auto_recovery_scraps rows =
      ((rows.filter reg_in_progress).map (fun r => r.id)).foldl
        (fun acc i =>
          acc.map (fun r => if r.id == i then reset_row r else r)) rows := by
  rfl

/-- C2 (amended): the recovery routine transitions every record stored as
running (en_progreso, case-insensitively) back to Pendiente and clears its
execution timestamps — and likewise any record sharing an id with one of
them.  It maintains no retry counter (the persisted record has none to
increment) and never transitions any task to failed, no matter how many
recoveries a task has gone through: the result is exactly the input with
reset_row applied to the records whose id matches an in-progress record. -/
theorem auto_recovery_scraps_eq (rows : List RegRow) :
    auto_recovery_scraps rows =
      rows.map (fun r =>
        if (rows.filter reg_in_progress).any (fun s => r.id == s.id)
        then reset_row r else r) := by
  rw [auto_recovery_unfold,
    foldl_map_by_id RegRow.id reset_row (fun _ => rfl) (fun _ => rfl)]
  apply List.map_congr_left
  intro r _
  rw [any_map_general]

/-- Counterexample for C2: a task that is running at the moment of a crash
on five consecutive rounds — more than max_recovery_attempts = 3, and more
than any retry budget — is reset to Pendiente by every recovery and never
reaches a failed state with reason exhausted_retries; the record has no
retry counter at all. -/
theorem auto_recovery_never_fails_counterexample :
    (crash_recover_round^[5] [base_regrow]).map RegRow.ultimo_estado =
        ["Pendiente"] ∧
      max_recovery_attempts = 3 := by
  constructor
  · decide
  · rfl

theorem update_first_mem (scrapId : String) (f : Scrap → Scrap)
    (l : List Scrap) (h : ∃ s ∈ l, s.id = scrapId) :
    ∃ s ∈ l, s.id = scrapId ∧ f s ∈ update_first scrapId f l := by
  induction l with
  | nil => simp at h
  | cons s rest ih =>
    by_cases hs : s.id = scrapId
    · exact ⟨s, List.mem_cons_self s rest, hs, by simp [update_first, hs]⟩
    · have hrest : ∃ t ∈ rest, t.id = scrapId := by
        rcases h with ⟨t, ht, hid⟩
        rcases List.mem_cons.mp ht with rfl | ht'
        · exact absurd hid hs
        · exact ⟨t, ht', hid⟩
      rcases ih hrest with ⟨u, hu, hid, hmem⟩
      refine ⟨u, List.mem_cons_of_mem s hu, hid, ?_⟩
      simpa [update_first, hs] using List.mem_cons_of_mem s hmem

/-- C3 (amended): the status-mutation operation of the registry fails
(returns False) exactly when the task id is unknown; when the id exists,
the update succeeds for every requested status string, with no
state-machine validation of the (current status, new status) pair — any
pair is accepted, including pending directly to completed or failed. -/
theorem update_scrap_execution_no_validation (registry : List Scrap)
    (scrapId newStatus : String) (records_extracted now : Nat) :
    ((∃ s ∈ registry, s.id = scrapId) →
        ∃ reg',
          update_scrap_execution registry scrapId newStatus
              records_extracted now = some reg' ∧
            ∃ s' ∈ reg', s'.id = scrapId ∧ s'.status = newStatus) ∧
      ((∀ s ∈ registry, s.id ≠ scrapId) →
        update_scrap_execution registry scrapId newStatus
            records_extracted now = none) := by
  constructor
  · intro hpres
    have hany : registry.any (fun s => s.id == scrapId) = true := by
      rcases hpres with ⟨s, hs, hid⟩
      exact List.any_eq_true.mpr ⟨s, hs, beq_iff_eq.mpr hid⟩
    refine ⟨update_first scrapId
        (apply_update newStatus records_extracted now) registry,
      by simp [update_scrap_execution, hany], ?_⟩
    rcases update_first_mem scrapId
        (apply_update newStatus records_extracted now) registry hpres with
      ⟨s, hs, hid, hmem⟩
    exact ⟨apply_update newStatus records_extracted now s, hmem, hid, rfl⟩
  · intro habs
    have hany : registry.any (fun s => s.id == scrapId) = false := by
      rw [List.any_eq_false]
      intro s hs
      exact fun hbeq => habs s hs (beq_iff_eq.mp hbeq)
    simp [update_scrap_execution, hany]

/-- Witness for C3 (amended): updating the only task, currently pending,
directly to completed succeeds and records the new status. -/
theorem update_scrap_execution_no_validation_witness :
    ∃ reg',
      update_scrap_execution [base_scrap] "inmuebles24_guadalajara_venta_casas"
          "completed" 5 100 = some reg' ∧
        ∃ s' ∈ reg', s'.id = "inmuebles24_guadalajara_venta_casas" ∧
          s'.status = "completed" :=
  (update_scrap_execution_no_validation [base_scrap]
      "inmuebles24_guadalajara_venta_casas" "completed" 5 100).1
    ⟨base_scrap, List.mem_singleton_self base_scrap, rfl⟩

/-- Counterexample for C3: the claim requires the move from pending
directly to completed, skipping running, to fail with an
invalid-transition error; on a registry holding one pending task the call
succeeds. -/
theorem update_pending_to_completed_succeeds :
    base_scrap.status = "pending" ∧
      (update_scrap_execution [base_scrap] base_scrap.id "completed"
          5 100).isSome = true := by
  constructor
  · rfl
  · decide

/-- C10: every successful status mutation, whatever the target status —
pending and paused included — overwrites the LastRun of the task with the
current time and its NextRun with the current time plus the interval in
days of the site (the intervalo_dias the loader filled from
get_interval_days); consequently the updated task is not due again for
get_pending_scraps until that full interval has elapsed. -/
theorem update_overwrites_schedule (registry : List Scrap)
    (scrapId status : String) (records_extracted now : Nat)
    (reg' : List Scrap)
    (h : update_scrap_execution registry scrapId status records_extracted
        now = some reg') :
    ∃ s' ∈ reg', s'.id = scrapId ∧ s'.status = status ∧
      s'.last_run = some now ∧
      s'.next_run = .val (now + s'.intervalo_dias * secondsPerDay) ∧
      ∀ now', now' < now + s'.intervalo_dias * secondsPerDay →
        s' ∉ get_pending_scraps none now' reg' := by
  unfold update_scrap_execution at h
  by_cases hany : registry.any (fun s => s.id == scrapId) = true
  · rw [if_pos hany] at h
    have hpres : ∃ s ∈ registry, s.id = scrapId := by
      rcases List.any_eq_true.mp hany with ⟨s, hs, hbeq⟩
      exact ⟨s, hs, beq_iff_eq.mp hbeq⟩
    rcases update_first_mem scrapId
        (apply_update status records_extracted now) registry hpres with
      ⟨s, _, hid, hmem⟩
    have hreg : reg' =
        update_first scrapId (apply_update status records_extracted now)
          registry := (Option.some_inj.mp h).symm
    subst hreg
    refine ⟨apply_update status records_extracted now s, hmem, hid, rfl,
      rfl, rfl, ?_⟩
    intro now' hlt hmemq
    unfold get_pending_scraps at hmemq
    rw [List.mem_insertionSort, pending_loop_eq_filter] at hmemq
    have hdue := (List.mem_filter.mp hmemq).2
    simp [pending_filter, scrap_is_due, apply_update] at hdue
    simp only [apply_update] at hlt
    omega
  · rw [if_neg hany] at h
    exact absurd h (by simp)

/-- Witness for C10: updating the single task to pending at time 0 stamps
LastRun 0 and NextRun one full 15-day interval later, and the task is not
due before that moment. -/
theorem update_overwrites_schedule_witness :
    ∃ s' ∈ update_first base_scrap.id (apply_update "pending" 0 0)
        [base_scrap],
      s'.id = base_scrap.id ∧ s'.status = "pending" ∧
        s'.last_run = some 0 ∧
        s'.next_run = .val (0 + s'.intervalo_dias * secondsPerDay) ∧
        ∀ now', now' < 0 + s'.intervalo_dias * secondsPerDay →
          s' ∉ get_pending_scraps none now'
            (update_first base_scrap.id (apply_update "pending" 0 0)
              [base_scrap]) :=
  update_overwrites_schedule [base_scrap] base_scrap.id "pending" 0 0 _
    (by rw [update_scrap_execution, if_pos (by decide)])

/-- C4 (amended): for every registry snapshot and time now, the ready-task
query returns exactly the active tasks that match the optional website
filter and whose NextRun is empty, unparsable, or at most now — regardless
of their stored status, which is never consulted — ordered by priority
ascending and then by LastRun ascending (longest waiting first, never-run
tasks first), with ties broken stably by insertion order. -/
theorem get_pending_scraps_spec (website : Option String) (now : Nat)
    (registry : List Scrap) :
    (get_pending_scraps website now registry).Perm
        (registry.filter (pending_filter website now)) ∧
      List.Sorted pending_le (get_pending_scraps website now registry) ∧
      ∀ a b : Scrap, pending_le a b →
        ([a, b]).Sublist (registry.filter (pending_filter website now)) →
        ([a, b]).Sublist (get_pending_scraps website now registry) := by
  refine ⟨?_, ?_, ?_⟩
  · unfold get_pending_scraps
    rw [pending_loop_eq_filter]
    exact List.perm_insertionSort _ _
  · exact List.sorted_insertionSort pending_le _
  · intro a b hab hsub
    unfold get_pending_scraps
    rw [pending_loop_eq_filter]
    exact List.pair_sublist_insertionSort hab hsub

/-- Witness for C4 (amended): two equal-key tasks of one snapshot stay in
insertion order in the query result. -/
theorem get_pending_scraps_spec_witness :
    ([base_scrap, { base_scrap with producto := "departamentos" }]).Sublist
      (get_pending_scraps none 0
        [base_scrap, { base_scrap with producto := "departamentos" }]) :=
  (get_pending_scraps_spec none 0
      [base_scrap, { base_scrap with producto := "departamentos" }]).2.2
    base_scrap { base_scrap with producto := "departamentos" }
    (Or.inr ⟨rfl, trivial⟩) (List.Sublist.refl _)

/-- Counterexample for C4: the query is claimed to return exactly tasks
whose status is pending; a task whose status is running (and has an empty
NextRun) is returned all the same, because the query never reads the
status column. -/
theorem get_pending_scraps_ignores_status :
    get_pending_scraps none 0 [{ base_scrap with status := "running" }] =
        [{ base_scrap with status := "running" }] ∧
      ({ base_scrap with status := "running" } : Scrap).status ≠
        "pending" := by
  constructor
  · rfl
  · decide

theorem load_rows_countP (k : String × String × String × String)
    (fileName : String) (rows : List CsvRow) :
    ∀ idx : Nat,
      (load_rows fileName idx rows).countP
          (fun s => natural_key s == k) =
        rows.countP (fun r => row_valid r && (row_key r == k)) := by
  induction rows with
  | nil => intro idx; rfl
  | cons r rest ih =>
    intro idx
    by_cases hv : (str_trim r.url != "" && str_trim r.paginaWeb != "") = true
    · rw [show load_rows fileName idx (r :: rest) =
          (match mk_scrap fileName idx r with
           | some s => s :: load_rows fileName (idx + 1) rest
           | none => load_rows fileName (idx + 1) rest) from rfl]
      rw [show mk_scrap fileName idx r = some
          { id := make_url_id (str_trim r.paginaWeb) (str_trim r.ciudad)
              (str_trim r.operacion) (str_trim r.productoPaginaWeb)
            website := str_trim r.paginaWeb
            ciudad := str_trim r.ciudad
            operacion := str_trim r.operacion
            producto := str_trim r.productoPaginaWeb
            url := str_trim r.url
            prioridad := get_website_priority (str_trim r.paginaWeb)
            intervalo_dias := get_interval_days (str_trim r.paginaWeb)
            activo := true
            csv_row := idx
            csv_file := fileName
            status := r.status
            last_run := r.lastRun
            next_run := r.nextRun
            records := r.records } from by simp [mk_scrap, hv]]
      rw [List.countP_cons, List.countP_cons, ih]
      simp [natural_key, row_key, row_valid, hv]
    · rw [show load_rows fileName idx (r :: rest) =
          load_rows fileName (idx + 1) rest from by
        simp [load_rows, mk_scrap, hv]]
      rw [List.countP_cons, ih]
      simp [row_valid, hv]

/-- C5 (amended): loading the registry from the persisted CSV records
performs no deduplication: for every natural key (site, city, operation,
product), the number of loaded tasks bearing that key equals the number of
records with that key whose URL and site cells are nonempty — duplicate
records yield duplicate tasks. -/
theorem load_urls_from_csv_count (files : List CsvFile)
    (k : String × String × String × String) :
    (load_urls_from_csv files).countP (fun s => natural_key s == k) =
      (files.flatMap CsvFile.rows).countP
        (fun r => row_valid r && (row_key r == k)) := by
  induction files with
  | nil => rfl
  | cons f rest ih =>
    rw [show load_urls_from_csv (f :: rest) =
        load_rows f.name 1 f.rows ++ load_urls_from_csv rest from rfl]
    rw [List.countP_append, load_rows_countP, ih,
      show (f :: rest).flatMap CsvFile.rows =
        f.rows ++ rest.flatMap CsvFile.rows from rfl,
      List.countP_append]

/-- Counterexample for C5: a file holding the same record twice loads into
two tasks with the same natural key, so the loaded list is not free of
duplicate natural keys. -/
theorem load_urls_from_csv_duplicates :
    (load_urls_from_csv [⟨"inm24_urls.csv", [base_row, base_row]⟩]).length
        = 2 ∧
      ¬ (load_urls_from_csv
            [⟨"inm24_urls.csv", [base_row, base_row]⟩]).Pairwise
          (fun a b => natural_key a ≠ natural_key b) := by
  constructor
  · rfl
  · decide

theorem website_filter_loop_eq (website : String) (now : Nat)
    (l : List Scrap) (out : List Scrap)
    (h : website_filter_loop website now l = some out) :
    out = l.filter
      (fun s => s.website == website &&
        (website_scrap_due now s == some true)) := by
  induction l generalizing out with
  | nil =>
    simp only [website_filter_loop, Option.some_inj] at h
    simp [h.symm]
  | cons s rest ih =>
    unfold website_filter_loop at h
    by_cases hw : (s.website == website) = true
    · rw [if_pos hw] at h
      cases hdue : website_scrap_due now s with
      | none =>
        rw [hdue] at h
        exact absurd h (by simp)
      | some b =>
        rw [hdue] at h
        cases b with
        | false =>
          rw [List.filter_cons, if_neg (show ¬ (s.website == website &&
              (website_scrap_due now s == some true)) = true from by
            simp [hw, hdue])]
          exact ih out h
        | true =>
          cases hr : website_filter_loop website now rest with
          | none =>
            rw [hr] at h
            exact absurd h (by simp)
          | some out' =>
            rw [hr] at h
            have hout : s :: out' = out := Option.some_inj.mp h
            rw [List.filter_cons, if_pos (show (s.website == website &&
                (website_scrap_due now s == some true)) = true from by
              simp [hw, hdue])]
            rw [← hout, ih out' hr]
    · rw [if_neg hw] at h
      rw [List.filter_cons, if_neg (show ¬ (s.website == website &&
          (website_scrap_due now s == some true)) = true from by
        simp [hw])]
      exact ih out h

theorem process_website_launches_all_true (k : Nat) (l : List Scrap) :
    process_website_launches (fun _ => true) k l = l := by
  induction l generalizing k with
  | nil => rfl
  | cons s rest ih => simp [process_website_launches, ih]

/-- C6 (amended): within the lane of one site the tasks are handed to the
worker one at a time, in the order of the list get_scraps_for_website
returns — which is the due tasks of the site stably sorted ascending on
(operacion, producto), not in raw registry (insertion) order. -/
theorem get_scraps_for_website_order (website : String) (now : Nat)
    (registry out : List Scrap)
    (h : get_scraps_for_website website now registry = some out) :
    process_website_launches (fun _ => true) 0 out = out ∧
      out.Perm (registry.filter
        (fun s => s.website == website &&
          (website_scrap_due now s == some true))) ∧
      List.Sorted op_prod_le out ∧
      ∀ a b : Scrap, op_prod_le a b →
        ([a, b]).Sublist (registry.filter
          (fun s => s.website == website &&
            (website_scrap_due now s == some true))) →
        ([a, b]).Sublist out := by
  unfold get_scraps_for_website at h
  cases hfl : website_filter_loop website now registry with
  | none =>
    rw [hfl] at h
    exact absurd h (by simp)
  | some mid =>
    rw [hfl] at h
    have hout : List.insertionSort op_prod_le mid = out :=
      Option.some_inj.mp h
    have hmid := website_filter_loop_eq website now registry mid hfl
    subst hout
    refine ⟨process_website_launches_all_true 0 _, ?_, ?_, ?_⟩
    · rw [← hmid]
      exact List.perm_insertionSort _ _
    · exact List.sorted_insertionSort op_prod_le _
    · intro a b hab hsub
      rw [← hmid] at hsub
      exact List.pair_sublist_insertionSort hab hsub

/-- Witness for C6 (amended): a two-task site lane evaluated concretely;
the renta task sorts ahead of the venta task and the launch loop hands the
sorted list through unchanged. -/
theorem get_scraps_for_website_order_witness :
    process_website_launches (fun _ => true) 0
        [{ base_scrap with operacion := "renta" }, base_scrap] =
        [{ base_scrap with operacion := "renta" }, base_scrap] ∧
      ([{ base_scrap with operacion := "renta" }, base_scrap]).Perm
        (([base_scrap, { base_scrap with operacion := "renta" }]).filter
          (fun s => s.website == "Inmuebles24" &&
            (website_scrap_due 0 s == some true))) ∧
      List.Sorted op_prod_le
        [{ base_scrap with operacion := "renta" }, base_scrap] ∧
      ∀ a b : Scrap, op_prod_le a b →
        ([a, b]).Sublist
          (([base_scrap, { base_scrap with operacion := "renta" }]).filter
            (fun s => s.website == "Inmuebles24" &&
              (website_scrap_due 0 s == some true))) →
        ([a, b]).Sublist
          [{ base_scrap with operacion := "renta" }, base_scrap] :=
  get_scraps_for_website_order "Inmuebles24" 0
    [base_scrap, { base_scrap with operacion := "renta" }]
    [{ base_scrap with operacion := "renta" }, base_scrap] (by decide)

/-- Counterexample for C6: with the registry holding the venta task before
the renta task, the lane receives the renta task first — the claimed
strict registry (insertion) order is violated by the (operation, product)
sort. -/
theorem get_scraps_for_website_not_registry_order :
    get_scraps_for_website "Inmuebles24" 0
        [base_scrap, { base_scrap with operacion := "renta" }] =
      some [{ base_scrap with operacion := "renta" }, base_scrap] ∧
    [{ base_scrap with operacion := "renta" }, base_scrap] ≠
      [base_scrap, { base_scrap with operacion := "renta" }] := by
  constructor
  · decide
  · decide

/-- C7: evaluation of the admission loop of process_website_completely at
the failing input.  Two due tasks occupy the site lane and the resource
check fails exactly at the first check (and recovers afterwards): no task
is admitted in the failed cycle, but after the 60-second cool-down the
continue statement advances the for loop, so the rejected first task is
skipped for the whole pass and only the second task is launched — the
rejected task is not retried, contrary to the claim and to the logged
intent of waiting. -/
theorem resource_rejection_skips_task :
    process_website_launches (fun k => k != 0) 0
        [base_scrap, { base_scrap with operacion := "renta" }] =
      [{ base_scrap with operacion := "renta" }] ∧
    base_scrap ∉ process_website_launches (fun k => k != 0) 0
        [base_scrap, { base_scrap with operacion := "renta" }] := by
  constructor
  · rfl
  · decide

/-- C8 (amended): in the concurrent manager the reap step enqueues exactly
one child (detail) task when a reaped parent succeeded with a urls_file and
its site has a detail scraper, and the dependency record of the child
names the parent; but in the advanced orchestrator the worker thread runs
the dependent detail scrape inline itself — its event trace contains no
enqueue at all, so there the child work is not enqueued by the
dispatcher. -/
theorem dependent_task_handling (parentId : String) (cfg : TaskCfg)
    (res : ReapResult) (uf ds : String)
    (hsucc : res.success = true) (huf : res.urls_file = some uf)
    (hds : detail_site_for cfg.site = some ds) :
    ((reap_children parentId cfg res).length = 1 ∧
      ∀ c ∈ reap_children parentId cfg res,
        c.2 = parentId ∧ c.1.site = ds ∧ c.1.urls_file = some uf) ∧
      ∀ (website url : String) (result : ThreadResult)
        (e : WorkerEvent), e ∈ run_scraper_thread_events website url result →
        is_enqueue_event e = false := by
  refine ⟨⟨?_, ?_⟩, ?_⟩
  · simp [reap_children, hsucc, huf, hds]
  · intro c hc
    simp [reap_children, hsucc, huf, hds] at hc
    simp [hc]
  · intro website url result e he
    unfold run_scraper_thread_events at he
    by_cases hs : result.success = true
    · rw [if_pos hs] at he
      cases hd : detail_dependencies website with
      | none =>
        rw [hd] at he
        exact absurd he (by simp)
      | some d =>
        rw [hd] at he
        rw [List.mem_singleton.mp he]
        rfl
    · rw [if_neg hs] at he
      exact absurd he (by simp)

/-- Witness for C8 (amended): a successful inm24 parent with a urls_file
yields exactly one enqueued child referencing it, and worker event traces
never contain an enqueue. -/
theorem dependent_task_handling_witness :
    ((reap_children "parent_1" base_cfg
          ⟨true, some "urls_inm24.csv", none, none⟩).length = 1 ∧
      ∀ c ∈ reap_children "parent_1" base_cfg
          ⟨true, some "urls_inm24.csv", none, none⟩,
        c.2 = "parent_1" ∧ c.1.site = "inm24_det" ∧
          c.1.urls_file = some "urls_inm24.csv") ∧
      ∀ (website url : String) (result : ThreadResult)
        (e : WorkerEvent), e ∈ run_scraper_thread_events website url result →
        is_enqueue_event e = false :=
  dependent_task_handling "parent_1" base_cfg
    ⟨true, some "urls_inm24.csv", none, none⟩ "urls_inm24.csv" "inm24_det"
    rfl rfl rfl

/-- Counterexample for C8: in the advanced orchestrator a successful
parent with an output reference makes the worker thread itself run the
detail scraper inline; the event trace is exactly one inline run and
contains no enqueue, so no child task is enqueued during any reap step of
this dispatcher. -/
theorem worker_runs_detail_inline :
    run_scraper_thread_events "inm24" "https://example.com/1"
        ⟨true, some "urls_inm24.csv"⟩ =
      [.inline_detail_run "inm24_det" "urls_inm24.csv"] ∧
    (run_scraper_thread_events "inm24" "https://example.com/1"
        ⟨true, some "urls_inm24.csv"⟩).countP is_enqueue_event = 0 := by
  constructor
  · rfl
  · rfl

theorem apply_update_id (status : String) (records_extracted now : Nat)
    (s : Scrap) :
    (apply_update status records_extracted now s).id = s.id := rfl

theorem apply_update_idem (status : String) (records_extracted now : Nat)
    (s : Scrap) :
    apply_update status records_extracted now
        (apply_update status records_extracted now s) =
      apply_update status records_extracted now s := rfl

theorem update_first_eq_map (scrapId : String) (f : Scrap → Scrap)
    (l : List Scrap) (hnd : (l.map Scrap.id).Nodup) :
    update_first scrapId f l =
      l.map (fun s => if s.id == scrapId then f s else s) := by
  induction l with
  | nil => rfl
  | cons s rest ih =>
    rw [List.map_cons, List.nodup_cons] at hnd
    by_cases hs : (s.id == scrapId) = true
    · rw [show update_first scrapId f (s :: rest) = f s :: rest from by
        simp [update_first, hs]]
      rw [List.map_cons, if_pos hs]
      have hrest : ∀ t ∈ rest, (if t.id == scrapId then f t else t) = t := by
        intro t ht
        have hne : (t.id == scrapId) = false := by
          rw [beq_eq_false_iff_ne]
          intro hteq
          exact hnd.1 (beq_iff_eq.mp hs ▸ hteq ▸ List.mem_map_of_mem Scrap.id ht)
        simp [hne]
      rw [List.map_congr_left hrest]
      simp
    · rw [show update_first scrapId f (s :: rest) =
          s :: update_first scrapId f rest from by simp [update_first, hs]]
      rw [List.map_cons, if_neg hs, ih hnd.2]

theorem update_all_by_ids_eq (status : String) (records_extracted now : Nat)
    (ids : List String) :
    ∀ l : List Scrap, (l.map Scrap.id).Nodup →
      (∀ i ∈ ids, l.any (fun s => s.id == i) = true) →
      update_all_by_ids status records_extracted now ids l =
        l.map (fun s =>
          if ids.any (fun i => s.id == i) then
            apply_update status records_extracted now s
          else s) := by
  induction ids with
  | nil =>
    intro l _ _
    simp [update_all_by_ids]
  | cons i ids ih =>
    intro l hnd hpres
    rw [show update_all_by_ids status records_extracted now (i :: ids) l =
        update_all_by_ids status records_extracted now ids
          ((update_scrap_execution l i status records_extracted now).getD l)
      from rfl]
    have hstep :
        (update_scrap_execution l i status records_extracted now).getD l =
          l.map (fun s =>
            if s.id == i then apply_update status records_extracted now s
            else s) := by
      unfold update_scrap_execution
      rw [if_pos (hpres i (List.mem_cons_self i ids)), Option.getD_some]
      exact update_first_eq_map i _ l hnd
    rw [hstep]
    have hid' : (l.map (fun s =>
        if s.id == i then apply_update status records_extracted now s
        else s)).map Scrap.id = l.map Scrap.id := by
      rw [List.map_map]
      apply List.map_congr_left
      intro s _
      simp only [Function.comp_apply]
      by_cases hsi : (s.id == i) = true
      · rw [if_pos hsi]
        rfl
      · rw [if_neg hsi]
    have hpres' : ∀ j ∈ ids,
        (l.map (fun s =>
          if s.id == i then apply_update status records_extracted now s
          else s)).any (fun s => s.id == j) = true := by
      intro j hj
      rw [any_map_general]
      have hpt : ∀ s : Scrap,
          ((if s.id == i then apply_update status records_extracted now s
            else s).id == j) = (s.id == j) := by
        intro s
        by_cases hsi : (s.id == i) = true
        · rw [if_pos hsi]
          rfl
        · rw [if_neg hsi]
      simp only [hpt]
      exact hpres j (List.mem_cons_of_mem i hj)
    rw [ih _ (hid' ▸ hnd) hpres', List.map_map]
    apply List.map_congr_left
    intro s _
    simp only [Function.comp_apply]
    by_cases h1 : (s.id == i) = true
    · rw [if_pos h1]
      simp only [apply_update_id]
      by_cases h2 : (ids.any fun j => s.id == j) = true
      · rw [if_pos h2, if_pos (by simp [List.any_cons, h1, h2]),
          apply_update_idem]
      · rw [if_neg h2, if_pos (by simp [List.any_cons, h1])]
    · rw [if_neg h1]
      by_cases h2 : (ids.any fun j => s.id == j) = true
      · rw [if_pos h2, if_pos (by simp [List.any_cons, h2])]
      · rw [if_neg h2, if_neg (by simp [List.any_cons, h1, h2])]

theorem map_id_of_guard_update (status : String)
    (records_extracted now : Nat) (cond : Scrap → Bool) (l : List Scrap) :
    (l.map (fun s =>
      if cond s then apply_update status records_extracted now s
      else s)).map Scrap.id = l.map Scrap.id := by
  rw [List.map_map]
  apply List.map_congr_left
  intro s _
  simp only [Function.comp_apply]
  by_cases h : cond s = true
  · rw [if_pos h]
    rfl
  · rw [if_neg h]

/-- C9: on a shutdown signal, every task of the active map — in particular
every task still running after the 30-second grace period — is transitioned
to paused through the registry, whose store persists each change; on the
subsequent resume, every paused task is transitioned back to pending
before run_orchestration restarts, so no task remains paused. -/
theorem shutdown_resume_spec (registry : List Scrap)
    (active : List (String × Scrap)) (now now' : Nat)
    (hnd : (registry.map Scrap.id).Nodup)
    (hact : ∀ p ∈ active, registry.any (fun s => s.id == p.2.id) = true) :
    (∀ p ∈ active, ∀ t ∈ graceful_shutdown registry active now,
        t.id = p.2.id → t.status = "paused") ∧
      (∀ t ∈ resume_paused (graceful_shutdown registry active now) now',
        t.status ≠ "paused") ∧
      (∀ t ∈ graceful_shutdown registry active now, t.status = "paused" →
        ∀ t' ∈ resume_paused (graceful_shutdown registry active now) now',
          t'.id = t.id → t'.status = "pending") := by
  have hpres1 : ∀ i ∈ active.map (fun p => p.2.id),
      registry.any (fun s => s.id == i) = true := by
    intro i hi
    rcases List.mem_map.mp hi with ⟨p, hp, rfl⟩
    exact hact p hp
  have hshut : graceful_shutdown registry active now =
      registry.map (fun s =>
        if (active.map (fun p => p.2.id)).any (fun i => s.id == i) then
          apply_update "paused" 0 now s
        else s) := by
    unfold graceful_shutdown
    exact update_all_by_ids_eq "paused" 0 now _ registry hnd hpres1
  have hnd2 : ((graceful_shutdown registry active now).map Scrap.id).Nodup := by
    rw [hshut, map_id_of_guard_update]
    exact hnd
  have hpres2 : ∀ i ∈ ((graceful_shutdown registry active now).filter
        (fun s => s.status == "paused")).map (fun s => s.id),
      (graceful_shutdown registry active now).any
        (fun s => s.id == i) = true := by
    intro i hi
    rcases List.mem_map.mp hi with ⟨t, htf, rfl⟩
    exact List.any_eq_true.mpr ⟨t, List.mem_of_mem_filter htf, by simp⟩
  have hres : resume_paused (graceful_shutdown registry active now) now' =
      (graceful_shutdown registry active now).map (fun s =>
        if (((graceful_shutdown registry active now).filter
              (fun s => s.status == "paused")).map (fun s => s.id)).any
            (fun i => s.id == i) then
          apply_update "pending" 0 now' s
        else s) := by
    unfold resume_paused
    exact update_all_by_ids_eq "pending" 0 now' _ _ hnd2 hpres2
  refine ⟨?_, ?_, ?_⟩
  · intro p hp t ht hid
    rw [hshut] at ht
    rcases List.mem_map.mp ht with ⟨s, _, rfl⟩
    by_cases hg : ((active.map (fun p => p.2.id)).any
        (fun i => s.id == i)) = true
    · rw [if_pos hg]
      rfl
    · rw [if_neg hg] at hid ⊢
      have : ((active.map (fun p => p.2.id)).any
          (fun i => s.id == i)) = true :=
        List.any_eq_true.mpr
          ⟨p.2.id, List.mem_map.mpr ⟨p, hp, rfl⟩, beq_iff_eq.mpr hid⟩
      exact absurd this hg
  · intro t ht
    rw [hres] at ht
    rcases List.mem_map.mp ht with ⟨s, hs2, rfl⟩
    by_cases hg : ((((graceful_shutdown registry active now).filter
        (fun s => s.status == "paused")).map (fun s => s.id)).any
        (fun i => s.id == i)) = true
    · rw [if_pos hg]
      simp [apply_update]
    · rw [if_neg hg]
      intro hps
      have : ((((graceful_shutdown registry active now).filter
          (fun s => s.status == "paused")).map (fun s => s.id)).any
          (fun i => s.id == i)) = true :=
        List.any_eq_true.mpr
          ⟨s.id, List.mem_map.mpr
            ⟨s, List.mem_filter.mpr ⟨hs2, by simp [hps]⟩, rfl⟩, by simp⟩
      exact absurd this hg
  · intro t ht hps t' ht' hid'
    rw [hres] at ht'
    rcases List.mem_map.mp ht' with ⟨s, _, rfl⟩
    by_cases hg : ((((graceful_shutdown registry active now).filter
        (fun s => s.status == "paused")).map (fun s => s.id)).any
        (fun i => s.id == i)) = true
    · rw [if_pos hg]
      rfl
    · rw [if_neg hg] at hid' ⊢
      have : ((((graceful_shutdown registry active now).filter
          (fun s => s.status == "paused")).map (fun s => s.id)).any
          (fun i => s.id == i)) = true :=
        List.any_eq_true.mpr
          ⟨t.id, List.mem_map.mpr
            ⟨t, List.mem_filter.mpr ⟨ht, by simp [hps]⟩, rfl⟩,
            beq_iff_eq.mpr hid'⟩
      exact absurd this hg

/-- Witness for C9: one running task, shut down and resumed concretely. -/
theorem shutdown_resume_spec_witness :
    (∀ p ∈ [("Inmuebles24", base_scrap)],
        ∀ t ∈ graceful_shutdown [base_scrap] [("Inmuebles24", base_scrap)] 0,
          t.id = p.2.id → t.status = "paused") ∧
      (∀ t ∈ resume_paused
          (graceful_shutdown [base_scrap] [("Inmuebles24", base_scrap)] 0) 7,
        t.status ≠ "paused") ∧
      (∀ t ∈ graceful_shutdown [base_scrap] [("Inmuebles24", base_scrap)] 0,
        t.status = "paused" →
        ∀ t' ∈ resume_paused
            (graceful_shutdown [base_scrap] [("Inmuebles24", base_scrap)] 0) 7,
          t'.id = t.id → t'.status = "pending") :=
  shutdown_resume_spec [base_scrap] [("Inmuebles24", base_scrap)] 0 7
    (by simp) (by decide)
